import Mathlib

/-!
# Verification of the namef-api order lifecycle

Shallow embedding of the order routes of `src/index.js` (the orders router:
`POST /`, `PATCH /:id/approve`, `PATCH /:id/reject`) and the stock router's
`PATCH /:id` (in `src/routes/dashboard.js`) over an explicit state (the
`stock_items` and `orders` tables of the Prisma schema).

Modelling conventions:
* Database rows are Lean structures; the database state is a pair of lists.
* `prisma.<model>.findUnique` is `List.find?` on the id.
* `prisma.<model>.update` on a missing id throws (Prisma `P2025`); every
  handler wraps its body in `try/catch` returning a 500, so a missing-row
  update surfaces as `ApiErr.serverError`.
* `prisma.$transaction` is modelled by `runTx`: the write steps run in
  sequence and commit only if all succeed; any failure (including an injected
  mid-sequence fault, the `fault` parameter) rolls the whole unit back.
* JS numbers for quantities and prices are modelled as `Int`
  (quantities are never bounds-checked by the code, so they may be negative);
  JS falsiness of the strings the code tests with `!x` is `falsyStr`.
-/

namespace Namef

inductive OrderStatus where
  | PENDING
  | APPROVED
  | REJECTED
deriving DecidableEq, Repr

/-- A row of `stock_items`. -/
structure StockItem where
  id : String
  name : String
  quantity : Int
  buyingPrice : Int
  sellingPrice : Option Int
deriving DecidableEq, Repr

/-- A row of `order_items`. -/
structure OrderItem where
  stockItemId : String
  quantity : Int
  unitPrice : Int
  totalPrice : Int
deriving DecidableEq, Repr

/-- A row of `orders`, with its `order_items` inlined (the handlers always
`include` them). -/
structure Order where
  id : String
  customerName : String
  customerContact : String
  status : OrderStatus
  totalAmount : Int
  rejectionReason : Option String
  salesRepId : String
  orderItems : List OrderItem
deriving DecidableEq, Repr

/-- The database state the order routes touch. -/
structure State where
  stock : List StockItem
  orders : List Order
deriving DecidableEq, Repr

def findStock (st : State) (sid : String) : Option StockItem :=
  st.stock.find? (fun s => s.id == sid)

def findOrder (st : State) (oid : String) : Option Order :=
  st.orders.find? (fun o => o.id == oid)

def stockQty (st : State) (sid : String) : Option Int :=
  (findStock st sid).map (fun s => s.quantity)

/-- One element of the request body's `items` array in `POST /`. -/
structure ItemReq where
  stockItemId : String
  quantity : Int
  sellingPrice : Option Int
deriving DecidableEq, Repr

/-- The request body of `POST /` (fields may be absent). -/
structure CreateReq where
  customerName : Option String
  customerContact : Option String
  items : Option (List ItemReq)
deriving DecidableEq, Repr

/-- JS falsiness of a possibly-absent string: `!x` is true when the field is
absent (`undefined`) or the empty string. -/
def falsyStr : Option String → Bool
  | none => true
  | some s => s.isEmpty

/-- JS test `!items || items.length === 0`. -/
def itemsMissing : Option (List ItemReq) → Bool
  | none => true
  | some l => l.isEmpty

/-- Error responses the handlers produce: 400 with a message, 404 with a
message, or the catch-all 500 `Internal server error`. -/
inductive ApiErr where
  | badRequest (msg : String)
  | notFound (msg : String)
  | serverError
deriving DecidableEq, Repr

/-- The `missing fields` guard of `POST /`:
`!customerName || !customerContact || !items || items.length === 0`. -/
def missingFields (req : CreateReq) : Bool :=
  falsyStr req.customerName || falsyStr req.customerContact || itemsMissing req.items

/-- The per-line validation of the `POST /` loop: `some e` when the line makes
the handler return early with error `e`, `none` when the line passes. -/
def lineCheck (st : State) (item : ItemReq) : Option ApiErr :=
  match findStock st item.stockItemId with
  | none => some (.badRequest ("Stock item not found: " ++ item.stockItemId))
  | some stockItem =>
    if stockItem.quantity < item.quantity then
      some (.badRequest ("Insufficient stock for " ++ stockItem.name))
    else none

/-- The order-item record the `POST /` loop pushes for one request line:
`sellingPrice = item.sellingPrice || 0`, `itemTotal = sellingPrice * quantity`. -/
def mkOrderItem (item : ItemReq) : OrderItem :=
  let sellingPrice := item.sellingPrice.getD 0
  { stockItemId := item.stockItemId
    quantity := item.quantity
    unitPrice := sellingPrice
    totalPrice := sellingPrice * item.quantity }

/-- The `POST /` validation loop: first failing line aborts with its error;
otherwise the accumulated total and the list of order items to create. -/
def buildItems (st : State) : List ItemReq → Except ApiErr (Int × List OrderItem)
  | [] => .ok (0, [])
  | item :: rest =>
    match lineCheck st item with
    | some e => .error e
    | none =>
      match buildItems st rest with
      | .error e => .error e
      | .ok (t, l) => .ok ((mkOrderItem item).totalPrice + t, mkOrderItem item :: l)

/-- The `POST /` handler: validate, then `prisma.order.create` with the nested
`orderItems`. `newId` stands for the id the database generates, `salesRepId`
for `req.user.id`. -/
def createOrder (st : State) (req : CreateReq) (newId salesRepId : String) :
    State × Except ApiErr Order :=
  if missingFields req then
    (st, .error (.badRequest "Customer details and items are required"))
  else
    match buildItems st (req.items.getD []) with
    | .error e => (st, .error e)
    | .ok (totalAmount, orderItems) =>
      let order : Order :=
        { id := newId
          customerName := req.customerName.getD ""
          customerContact := req.customerContact.getD ""
          status := .PENDING
          totalAmount := totalAmount
          rejectionReason := none
          salesRepId := salesRepId
          orderItems := orderItems }
      ({ st with orders := st.orders ++ [order] }, .ok order)

/-- One write issued inside the approve handler's `prisma.$transaction`. -/
inductive TxStep where
  | decStock (sid : String) (qty : Int)
  | setStatus (oid : String) (status : OrderStatus)
deriving DecidableEq, Repr

/-- Execute one transactional write; `none` models a thrown Prisma error
(`update` on a missing row). -/
def applyStep (st : State) : TxStep → Option State
  | .decStock sid qty =>
    if st.stock.any (fun s => s.id == sid) then
      some { st with stock := st.stock.map (fun s =>
        if s.id == sid then { s with quantity := s.quantity - qty } else s) }
    else none
  | .setStatus oid status =>
    if st.orders.any (fun o => o.id == oid) then
      some { st with orders := st.orders.map (fun o =>
        if o.id == oid then { o with status := status } else o) }
    else none

/-- Run a `prisma.$transaction` body: execute the steps in order; `fault`
injects an infrastructure failure just before the step with that index.
`none` means the transaction threw; the caller then keeps the pre-transaction
state (rollback). -/
def runTx : State → List TxStep → Option Nat → Option State
  | st, [], _ => some st
  | st, s :: rest, fault =>
    if fault = some 0 then none
    else
      match applyStep st s with
      | none => none
      | some st1 => runTx st1 rest (Option.map (fun n => n - 1) fault)

/-- The `Check stock availability again` loop of the approve handler: for each
order item, compare the included stock item's current quantity with the line's
quantity.  A line whose stock row is gone would make `orderItem.stockItem`
null and the handler throw into its catch (500). -/
def recheckItems (st : State) : List OrderItem → Option ApiErr
  | [] => none
  | oi :: rest =>
    match findStock st oi.stockItemId with
    | none => some .serverError
    | some s =>
      if s.quantity < oi.quantity then
        some (.badRequest ("Insufficient stock for " ++ s.name))
      else recheckItems st rest

/-- The `PATCH /:id/approve` handler. Returns the post-request state and the
response. `fault` injects a failure into the transaction (none = no fault). -/
def approveOrder (st : State) (oid : String) (fault : Option Nat) :
    State × Except ApiErr Unit :=
  match findOrder st oid with
  | none => (st, .error (.notFound "Order not found"))
  | some order =>
    if order.status ≠ OrderStatus.PENDING then
      (st, .error (.badRequest "Order is not pending"))
    else
      match recheckItems st order.orderItems with
      | some e => (st, .error e)
      | none =>
        let steps :=
          order.orderItems.map (fun oi => TxStep.decStock oi.stockItemId oi.quantity)
            ++ [TxStep.setStatus oid OrderStatus.APPROVED]
        match runTx st steps fault with
        | none => (st, .error .serverError)
        | some st1 => (st1, .ok ())

/-- The `PATCH /:id/reject` handler: guard on `!rejectionReason`, then an
unconditional `prisma.order.update` setting status and reason (throwing, hence
500, when the order id does not exist; no status check). -/
def rejectOrder (st : State) (oid : String) (rejectionReason : Option String) :
    State × Except ApiErr Unit :=
  if falsyStr rejectionReason then
    (st, .error (.badRequest "Rejection reason is required"))
  else
    if st.orders.any (fun o => o.id == oid) then
      ({ st with orders := st.orders.map (fun o =>
          if o.id == oid then
            { o with status := .REJECTED, rejectionReason := rejectionReason }
          else o) },
       .ok ())
    else
      (st, .error .serverError)

/-- The `PATCH /:id` handler of the stock CRUD router (the stock router
section of `src/routes/dashboard.js`): `updateData` gets `quantity` and/or
`buyingPrice` when those body fields are present (`sellingPrice` is never
written), then `prisma.stockItem.update` runs on the id — throwing into the
catch (500) when the row does not exist. It never touches orders. -/
def updateStockItem (st : State) (sid : String)
    (quantity : Option Int) (buyingPrice : Option Int) :
    State × Except ApiErr Unit :=
  if st.stock.any (fun s => s.id == sid) then
    ({ st with stock := st.stock.map (fun s =>
        if s.id == sid then
          { s with
            quantity := quantity.getD s.quantity
            buyingPrice := buyingPrice.getD s.buyingPrice }
        else s) },
     .ok ())
  else
    (st, .error .serverError)

/-- Projection of the order table that pricing claims say is frozen after
creation: id, total amount and line items of every order. -/
def orderFinancials (st : State) : List (String × Int × List OrderItem) :=
  st.orders.map (fun o => (o.id, o.totalAmount, o.orderItems))

/-- Total quantity the given order items request of one stock id. -/
def reqTotal (sid : String) (items : List OrderItem) : Int :=
  ((items.filter (fun oi => oi.stockItemId == sid)).map (fun oi => oi.quantity)).sum

/-! ## Basic list lemmas -/

theorem any_of_find? {α : Type} {p : α → Bool} {l : List α} {a : α}
    (h : l.find? p = some a) : l.any p = true :=
  List.any_eq_true.mpr ⟨a, List.mem_of_find?_eq_some h, List.find?_some h⟩

theorem any_eq_false_of_find?_none {α : Type} {p : α → Bool} {l : List α}
    (h : l.find? p = none) : l.any p = false := by
  cases hany : l.any p with
  | false => rfl
  | true =>
    obtain ⟨x, hx, hpx⟩ := List.any_eq_true.mp hany
    exact absurd hpx (List.find?_eq_none.mp h x hx)

/-- Updating exactly the rows matching an id, by an id-preserving function,
moves through `find?` on that id. -/
theorem find?_update_order {l : List Order} {oid : String} {order : Order}
    (f : Order → Order) (hf : ∀ o, (f o).id = o.id)
    (h : l.find? (fun o => o.id == oid) = some order) :
    (l.map (fun o => if o.id == oid then f o else o)).find? (fun o => o.id == oid)
      = some (f order) := by
  induction l with
  | nil => simp at h
  | cons a l ih =>
    rw [List.map_cons]
    by_cases ha : (a.id == oid) = true
    · rw [List.find?_cons_of_pos (p := fun o : Order => o.id == oid) _ ha] at h
      injection h with h
      subst h
      rw [if_pos ha]
      exact List.find?_cons_of_pos (p := fun o : Order => o.id == oid) _
        (by simp only [hf]; exact ha)
    · rw [List.find?_cons_of_neg (p := fun o : Order => o.id == oid) _ ha] at h
      rw [if_neg ha]
      rw [List.find?_cons_of_neg (p := fun o : Order => o.id == oid) _ ha]
      exact ih h

theorem findStock_map (stock : List StockItem) (f : StockItem → StockItem)
    (hf : ∀ s, (f s).id = s.id) (sid : String) :
    (stock.map f).find? (fun s => s.id == sid) =
      (stock.find? (fun s => s.id == sid)).map f := by
  rw [List.find?_map]
  have hp : ((fun s : StockItem => s.id == sid) ∘ f) = (fun s : StockItem => s.id == sid) :=
    funext fun s => by simp [Function.comp, hf]
  rw [hp]

theorem any_id_map (stock : List StockItem) (f : StockItem → StockItem)
    (hf : ∀ s, (f s).id = s.id) (sid : String) :
    (stock.map f).any (fun s => s.id == sid) = stock.any (fun s => s.id == sid) := by
  rw [List.any_map]
  have hp : ((fun s : StockItem => s.id == sid) ∘ f) = (fun s : StockItem => s.id == sid) :=
    funext fun s => by simp [Function.comp, hf]
  rw [hp]

/-! ## Intake validation lemmas -/

/-- The `POST /` loop rejects with `e` exactly when the first line whose
`lineCheck` is non-passing yields `e`. -/
theorem buildItems_error_iff (st : State) (items : List ItemReq) (e : ApiErr) :
    buildItems st items = .error e ↔ items.findSome? (lineCheck st) = some e := by
  induction items with
  | nil => simp [buildItems, List.findSome?]
  | cons item rest ih =>
    rw [List.findSome?_cons]
    cases hc : lineCheck st item with
    | some e' => simp [buildItems, hc]
    | none =>
      simp only [buildItems, hc]
      rw [← ih]
      cases hb : buildItems st rest <;> simp [hb]

/-- Shape of a successful `POST /` validation pass: items and grand total. -/
theorem buildItems_ok_shape (st : State) :
    ∀ (items : List ItemReq) (t : Int) (l : List OrderItem),
      buildItems st items = .ok (t, l) →
      l = items.map mkOrderItem ∧ t = (l.map (fun oi => oi.totalPrice)).sum := by
  intro items
  induction items with
  | nil =>
    intro t l h
    simp only [buildItems] at h
    injection h with h
    injection h with h1 h2
    subst h1; subst h2
    simp
  | cons item rest ih =>
    intro t l h
    simp only [buildItems] at h
    cases hc : lineCheck st item <;> rw [hc] at h
    case none =>
      cases hb : buildItems st rest <;> rw [hb] at h
      case error => simp at h
      case ok p =>
        obtain ⟨t', l'⟩ := p
        simp only at h
        injection h with h
        injection h with h1 h2
        obtain ⟨hl', ht'⟩ := ih t' l' hb
        subst h1; subst h2
        subst hl'; subst ht'
        simp [List.sum_cons]
    case some => simp at h

/-! ## Approve handler lemmas -/

/-- The approve re-check passes when every line's stock row exists with enough
quantity. -/
theorem recheckItems_none (st : State) (items : List OrderItem)
    (h : ∀ oi ∈ items, ∃ s, findStock st oi.stockItemId = some s ∧
      oi.quantity ≤ s.quantity) :
    recheckItems st items = none := by
  induction items with
  | nil => rfl
  | cons oi rest ih =>
    obtain ⟨s, hs, hq⟩ := h oi (List.mem_cons_self _ _)
    simp only [recheckItems, hs]
    rw [if_neg (by omega)]
    exact ih (fun oi' h' => h oi' (List.mem_cons_of_mem _ h'))

theorem runTx_none_cons (st : State) (s : TxStep) (rest : List TxStep) :
    runTx st (s :: rest) none =
      (applyStep st s).bind (fun st1 => runTx st1 rest none) := by
  simp only [runTx]
  rw [if_neg (by simp)]
  cases applyStep st s <;> simp

theorem runTx_append (a b : List TxStep) : ∀ st : State,
    runTx st (a ++ b) none = (runTx st a none).bind (fun st1 => runTx st1 b none) := by
  induction a with
  | nil => intro st; simp [runTx]
  | cons s rest ih =>
    intro st
    rw [List.cons_append, runTx_none_cons, runTx_none_cons]
    cases applyStep st s <;> simp [ih]

theorem applyStep_decStock_some {st : State} {sid : String} (qty : Int)
    (h : st.stock.any (fun s => s.id == sid) = true) :
    applyStep st (.decStock sid qty) =
      some { st with stock := st.stock.map (fun s =>
        if s.id == sid then { s with quantity := s.quantity - qty } else s) } := by
  simp [applyStep, h]

theorem applyStep_setStatus_some {st : State} {oid : String} (status : OrderStatus)
    (h : st.orders.any (fun o => o.id == oid) = true) :
    applyStep st (.setStatus oid status) =
      some { st with orders := st.orders.map (fun o =>
        if o.id == oid then { o with status := status } else o) } := by
  simp [applyStep, h]

theorem decMap_id (sid : String) (qty : Int) (s : StockItem) :
    (if s.id == sid then { s with quantity := s.quantity - qty } else s).id = s.id := by
  split <;> rfl

theorem reqTotal_cons (sid : String) (oi : OrderItem) (rest : List OrderItem) :
    reqTotal sid (oi :: rest) =
      (if oi.stockItemId == sid then oi.quantity else 0) + reqTotal sid rest := by
  simp only [reqTotal, List.filter_cons]
  split
  · simp [List.sum_cons, reqTotal]
  · simp [reqTotal]

/-- Running the decrement steps of an approval (all of whose stock rows exist)
commits, and subtracts from every stock row the total quantity the order items
request of it. -/
theorem runTx_decs : ∀ (items : List OrderItem) (st : State),
    (∀ oi ∈ items, st.stock.any (fun s => s.id == oi.stockItemId) = true) →
    runTx st (items.map (fun oi => TxStep.decStock oi.stockItemId oi.quantity)) none =
      some { st with stock := st.stock.map (fun s =>
        { s with quantity := s.quantity - reqTotal s.id items }) } := by
  intro items
  induction items with
  | nil =>
    intro st _
    have hfun : (fun s : StockItem => { s with quantity := s.quantity - reqTotal s.id [] })
        = id := by
      funext s
      simp [reqTotal]
    simp [runTx, hfun]
  | cons oi rest ih =>
    intro st h
    rw [List.map_cons, runTx_none_cons,
      applyStep_decStock_some oi.quantity (h oi (List.mem_cons_self _ _)),
      Option.some_bind]
    rw [ih _ (fun oi' hoi' => by
      rw [any_id_map _ _ (decMap_id oi.stockItemId oi.quantity)]
      exact h oi' (List.mem_cons_of_mem _ hoi'))]
    simp only [List.map_map]
    have hfun : ((fun s : StockItem => { s with quantity := s.quantity - reqTotal s.id rest }) ∘
        (fun s : StockItem =>
          if s.id == oi.stockItemId then { s with quantity := s.quantity - oi.quantity } else s))
        = (fun s : StockItem => { s with quantity := s.quantity - reqTotal s.id (oi :: rest) }) := by
      funext s
      simp only [Function.comp]
      by_cases hc : (s.id == oi.stockItemId) = true
      · rw [if_pos hc]
        have hsid : (oi.stockItemId == s.id) = true := by
          rw [beq_iff_eq] at hc ⊢
          exact hc.symm
        simp only [reqTotal_cons, hsid, if_true, StockItem.mk.injEq, true_and, and_true]
        omega
      · rw [if_neg hc]
        have hsid : ¬ (oi.stockItemId == s.id) = true := by
          rw [beq_iff_eq] at hc ⊢
          exact fun he => hc he.symm
        simp only [reqTotal_cons, if_neg hsid, zero_add]
    rw [hfun]

theorem reqTotal_zero (sid : String) : ∀ (items : List OrderItem),
    (∀ oi ∈ items, oi.stockItemId ≠ sid) → reqTotal sid items = 0 := by
  intro items
  induction items with
  | nil => intro _; simp [reqTotal]
  | cons oi rest ih =>
    intro h
    have hne : ¬ (oi.stockItemId == sid) = true := by
      rw [beq_iff_eq]
      exact h oi (List.mem_cons_self _ _)
    rw [reqTotal_cons, if_neg hne, zero_add]
    exact ih (fun oi' h' => h oi' (List.mem_cons_of_mem _ h'))

/-- When no two order items share a stock id, the total requested of a line's
stock id is just that line's quantity. -/
theorem reqTotal_of_nodup : ∀ (items : List OrderItem) (oi : OrderItem),
    (items.map (fun x => x.stockItemId)).Nodup → oi ∈ items →
    reqTotal oi.stockItemId items = oi.quantity := by
  intro items
  induction items with
  | nil => intro oi _ hmem; cases hmem
  | cons a rest ih =>
    intro oi hnd hmem
    rw [List.map_cons, List.nodup_cons] at hnd
    obtain ⟨hna, hnd'⟩ := hnd
    rcases List.mem_cons.mp hmem with h | h
    · subst h
      have hz : reqTotal oi.stockItemId rest = 0 := by
        apply reqTotal_zero
        intro x hx hex
        have hm : x.stockItemId ∈ rest.map (fun y => y.stockItemId) :=
          List.mem_map_of_mem _ hx
        rw [hex] at hm
        exact hna hm
      rw [reqTotal_cons, if_pos (by rw [beq_iff_eq]), hz, add_zero]
    · have hne : ¬ (a.stockItemId == oi.stockItemId) = true := by
        rw [beq_iff_eq]
        intro he
        have hm : oi.stockItemId ∈ rest.map (fun y => y.stockItemId) :=
          List.mem_map_of_mem _ h
        rw [← he] at hm
        exact hna hm
      rw [reqTotal_cons, if_neg hne, zero_add]
      exact ih oi hnd' h

/-- Transactional writes never change an order's id, total amount or items
(`decStock` touches only stock; `setStatus` touches only the status field). -/
theorem applyStep_financials {st st' : State} {s : TxStep}
    (h : applyStep st s = some st') :
    orderFinancials st' = orderFinancials st := by
  cases s with
  | decStock sid qty =>
    simp only [applyStep] at h
    split at h
    · injection h with h
      subst h
      rfl
    · exact absurd h (by simp)
  | setStatus oid status =>
    simp only [applyStep] at h
    split at h
    · injection h with h
      subst h
      unfold orderFinancials
      simp only [List.map_map]
      apply List.map_congr_left
      intro o _
      simp only [Function.comp]
      split <;> rfl
    · exact absurd h (by simp)

theorem runTx_financials : ∀ (steps : List TxStep) (st st' : State) (fault : Option Nat),
    runTx st steps fault = some st' → orderFinancials st' = orderFinancials st := by
  intro steps
  induction steps with
  | nil =>
    intro st st' fault h
    unfold runTx at h
    injection h with h
    subst h
    rfl
  | cons s rest ih =>
    intro st st' fault h
    unfold runTx at h
    split at h
    · exact absurd h (by simp)
    · cases ha : applyStep st s <;> rw [ha] at h
      · simp at h
      · exact (ih _ st' _ h).trans (applyStep_financials ha)

/-- Shape of a successful `POST /`: the created order's items, total, status,
and the new state. -/
theorem createOrder_ok_shape (st : State) (req : CreateReq) (newId salesRepId : String)
    (st' : State) (o : Order)
    (h : createOrder st req newId salesRepId = (st', .ok o)) :
    o.orderItems = (req.items.getD []).map mkOrderItem ∧
    o.totalAmount = (o.orderItems.map (fun oi => oi.totalPrice)).sum ∧
    o.status = .PENDING ∧
    st' = { st with orders := st.orders ++ [o] } := by
  unfold createOrder at h
  split at h
  · simp at h
  · cases hb : buildItems st (req.items.getD []) with
    | error e =>
      rw [hb] at h
      simp at h
    | ok p =>
      obtain ⟨t, l⟩ := p
      rw [hb] at h
      obtain ⟨hl, ht⟩ := buildItems_ok_shape st _ t l hb
      injection h with h1 h2
      injection h2 with h2
      subst h2
      exact ⟨hl, ht, rfl, h1.symm⟩

/-- The reject handler never writes to stock on any path. -/
theorem rejectOrder_stock_frame (st : State) (oid : String)
    (reason : Option String) :
    (rejectOrder st oid reason).fst.stock = st.stock := by
  unfold rejectOrder
  split
  · rfl
  · split <;> rfl

/-- The reject handler on an existing order with a non-falsy reason: succeeds,
sets status REJECTED and stores the reason. -/
theorem rejectOrder_ok (st : State) (oid : String) (reason : Option String)
    (order : Order) (hord : findOrder st oid = some order)
    (hreason : falsyStr reason = false) :
    (rejectOrder st oid reason).snd = .ok () ∧
    findOrder (rejectOrder st oid reason).fst oid
      = some { order with status := .REJECTED, rejectionReason := reason } := by
  unfold rejectOrder
  rw [if_neg (by simp [hreason]), if_pos (any_of_find? hord)]
  refine ⟨rfl, ?_⟩
  exact find?_update_order
    (fun o => { o with status := .REJECTED, rejectionReason := reason })
    (fun o => rfl) hord

/-! ## Concrete scenario data (spec §8 end-to-end scenarios) -/

def plywood10 : StockItem :=
  { id := "s1", name := "Plywood", quantity := 10, buyingPrice := 50,
    sellingPrice := some 80 }

def reqA : CreateReq :=
  { customerName := some "Abe", customerContact := some "0911",
    items := some [{ stockItemId := "s1", quantity := 4, sellingPrice := some 100 }] }

def stA : State := { stock := [plywood10], orders := [] }

def itemA : OrderItem :=
  { stockItemId := "s1", quantity := 4, unitPrice := 100, totalPrice := 400 }

def ordA : Order :=
  { id := "o1", customerName := "Abe", customerContact := "0911",
    status := .PENDING, totalAmount := 400, rejectionReason := none,
    salesRepId := "u1", orderItems := [itemA] }

/-- The state after scenario A's order is created (equals
`(createOrder stA reqA "o1" "u1").fst`). -/
def stPend : State := { stock := [plywood10], orders := [ordA] }

/-- A state holding a terminal (APPROVED) order. -/
def stTerminal : State :=
  { stock := [plywood10], orders := [{ ordA with status := .APPROVED }] }

/-! ## Claim theorems -/

/-- C7: order intake performs no writes to stock — for every create-order
request, succeeding or failing, the stock table after `POST /` is exactly the
stock table before it. -/
theorem createOrder_stock_frame (st : State) (req : CreateReq)
    (newId salesRepId : String) :
    (createOrder st req newId salesRepId).fst.stock = st.stock := by
  unfold createOrder
  split
  · rfl
  · split <;> rfl

/-- C1: the approval settlement is all-or-nothing — whenever any part of an
approval attempt fails (order missing, not pending, failed re-check, or a
fault anywhere inside the transaction, which rolls back), the post-request
state is exactly the pre-request state: no stock decrement survives and the
order's status is untouched. -/
theorem approve_rollback (st : State) (oid : String) (fault : Option Nat)
    (e : ApiErr) (h : (approveOrder st oid fault).snd = .error e) :
    (approveOrder st oid fault).fst = st := by
  cases hf : findOrder st oid with
  | none => simp [approveOrder, hf]
  | some order =>
    by_cases hp : order.status = OrderStatus.PENDING
    · cases hr : recheckItems st order.orderItems with
      | some e' => simp [approveOrder, hf, hp, hr]
      | none =>
        cases ht : runTx st
            (order.orderItems.map (fun oi => TxStep.decStock oi.stockItemId oi.quantity)
              ++ [TxStep.setStatus oid OrderStatus.APPROVED]) fault with
        | none => simp [approveOrder, hf, hp, hr, ht]
        | some st1 => simp [approveOrder, hf, hp, hr, ht] at h
    · simp [approveOrder, hf, hp]

theorem approve_rollback_witness :
    (approveOrder { stock := [], orders := [] } "o1" none).snd
        = .error (.notFound "Order not found") ∧
    (approveOrder { stock := [], orders := [] } "o1" none).fst
        = { stock := [], orders := [] } :=
  ⟨rfl, approve_rollback _ _ _ (.notFound "Order not found") rfl⟩

/-- C10: rejecting a non-existent order id surfaces as the generic 500-class
`serverError` (the handler issues the update without an existence check, so
Prisma's thrown error lands in the catch), not as a 404 `notFound`. -/
theorem reject_missing_order_500 (st : State) (oid : String)
    (reason : Option String) (hreason : falsyStr reason = false)
    (hmiss : findOrder st oid = none) :
    rejectOrder st oid reason = (st, .error .serverError) := by
  unfold rejectOrder
  rw [if_neg (by simp [hreason]), if_neg (by simp [any_eq_false_of_find?_none hmiss])]

theorem reject_missing_order_500_witness :
    falsyStr (some "mistake") = false ∧
    findOrder { stock := [], orders := [] } "ghost" = none ∧
    rejectOrder { stock := [], orders := [] } "ghost" (some "mistake")
      = ({ stock := [], orders := [] }, .error .serverError) :=
  ⟨rfl, rfl, reject_missing_order_500 _ _ _ rfl rfl⟩

/-- C8: `PATCH /:id/reject` fails with the missing-reason 400 when the reason
is absent or empty; it never touches stock; and on an existing order with a
non-empty reason it succeeds, setting the status to REJECTED and storing the
reason. -/
theorem reject_contract (st : State) (oid : String) (reason : Option String) :
    (falsyStr reason = true →
      rejectOrder st oid reason
        = (st, .error (.badRequest "Rejection reason is required")))
  ∧ (rejectOrder st oid reason).fst.stock = st.stock
  ∧ (∀ order, findOrder st oid = some order → falsyStr reason = false →
      (rejectOrder st oid reason).snd = .ok () ∧
      findOrder (rejectOrder st oid reason).fst oid
        = some { order with status := .REJECTED, rejectionReason := reason }) := by
  refine ⟨?_, rejectOrder_stock_frame st oid reason, ?_⟩
  · intro h
    unfold rejectOrder
    rw [if_pos h]
  · intro order hord hreason
    exact rejectOrder_ok st oid reason order hord hreason

theorem reject_contract_witness :
    (rejectOrder stPend "o1" (some "customer cancelled")).snd = .ok () ∧
    findOrder (rejectOrder stPend "o1" (some "customer cancelled")).fst "o1"
      = some ({ ordA with
                status := .REJECTED
                rejectionReason := some "customer cancelled" }) ∧
    (rejectOrder stPend "o1" (some "customer cancelled")).fst.stock = stPend.stock :=
  ⟨((reject_contract stPend "o1" (some "customer cancelled")).2.2 ordA rfl rfl).1,
   ((reject_contract stPend "o1" (some "customer cancelled")).2.2 ordA rfl rfl).2,
   (reject_contract stPend "o1" (some "customer cancelled")).2.1⟩

/-- C3 counterexample: rejecting an order that is already APPROVED (a terminal
state) does NOT fail — the reject handler succeeds and flips the status to
REJECTED, so terminal states are not terminal under `reject`. -/
theorem reject_terminal_counterexample :
    (findOrder stTerminal "o1").map (fun o => o.status) = some .APPROVED ∧
    (rejectOrder stTerminal "o1" (some "late")).snd = .ok () ∧
    (findOrder (rejectOrder stTerminal "o1" (some "late")).fst "o1").map
      (fun o => o.status) = some .REJECTED :=
  ⟨rfl, rfl, rfl⟩

/-- C3 (amended): `approve` on a missing order fails 404 and on a non-PENDING
order fails with the invalid-transition 400, both with no state change; but
`reject` with a non-empty reason succeeds on ANY existing order regardless of
its status (including terminal ones), setting status to REJECTED and storing
the reason, touching no stock. -/
theorem terminal_transitions_amended (st : State) (oid : String)
    (fault : Option Nat) (reason : Option String) :
    (findOrder st oid = none →
      approveOrder st oid fault = (st, .error (.notFound "Order not found")))
  ∧ (∀ order, findOrder st oid = some order → order.status ≠ .PENDING →
      approveOrder st oid fault = (st, .error (.badRequest "Order is not pending")))
  ∧ (∀ order, findOrder st oid = some order → falsyStr reason = false →
      (rejectOrder st oid reason).snd = .ok () ∧
      findOrder (rejectOrder st oid reason).fst oid
        = some { order with status := .REJECTED, rejectionReason := reason } ∧
      (rejectOrder st oid reason).fst.stock = st.stock) := by
  refine ⟨?_, ?_, ?_⟩
  · intro h
    simp [approveOrder, h]
  · intro order hord hstat
    simp [approveOrder, hord, hstat]
  · intro order hord hreason
    exact ⟨(rejectOrder_ok st oid reason order hord hreason).1,
      (rejectOrder_ok st oid reason order hord hreason).2,
      rejectOrder_stock_frame st oid reason⟩

theorem terminal_transitions_amended_witness :
    approveOrder stTerminal "o1" none
      = (stTerminal, .error (.badRequest "Order is not pending")) :=
  (terminal_transitions_amended stTerminal "o1" none none).2.1
    { ordA with status := .APPROVED } rfl (by decide)

/-! Data for the C2 negative-stock bug: one order holding two lines that
reference the same stock item, each line passing the per-line check. -/

def bugStock : StockItem :=
  { id := "s1", name := "Plywood", quantity := 4, buyingPrice := 50,
    sellingPrice := some 80 }

def bugState : State := { stock := [bugStock], orders := [] }

def bugReq : CreateReq :=
  { customerName := some "Abe", customerContact := some "0911",
    items := some [{ stockItemId := "s1", quantity := 3, sellingPrice := some 100 },
                   { stockItemId := "s1", quantity := 3, sellingPrice := some 100 }] }

def bugOrder : Order :=
  { id := "o1", customerName := "Abe", customerContact := "0911",
    status := .PENDING, totalAmount := 600, rejectionReason := none,
    salesRepId := "u1",
    orderItems := [{ stockItemId := "s1", quantity := 3, unitPrice := 100, totalPrice := 300 },
                   { stockItemId := "s1", quantity := 3, unitPrice := 100, totalPrice := 300 }] }

/-- C2: the never-negative-stock invariant FAILS in the code. From stock
quantity 4, an order with two lines of quantity 3 on the same stock item is
accepted by intake (each line passes `quantity < requested` separately),
passes the approval re-check the same way, and the approval then decrements
twice, ending with quantity −2 and the order APPROVED. -/
theorem approve_negative_stock_bug :
    (createOrder bugState bugReq "o1" "u1").snd = .ok bugOrder ∧
    (approveOrder (createOrder bugState bugReq "o1" "u1").fst "o1" none).snd = .ok () ∧
    stockQty (approveOrder (createOrder bugState bugReq "o1" "u1").fst "o1" none).fst "s1"
      = some (-2) ∧
    (findOrder (approveOrder (createOrder bugState bugReq "o1" "u1").fst "o1" none).fst
      "o1").map (fun o => o.status) = some .APPROVED :=
  ⟨rfl, rfl, rfl, rfl⟩

/-! Data for the C9 counterexample: a creation request carrying a line of
quantity 0. -/

def zeroReq : CreateReq :=
  { customerName := some "Abe", customerContact := some "0911",
    items := some [{ stockItemId := "s1", quantity := 0, sellingPrice := some 100 }] }

def zeroOrder : Order :=
  { id := "o1", customerName := "Abe", customerContact := "0911",
    status := .PENDING, totalAmount := 0, rejectionReason := none,
    salesRepId := "u1",
    orderItems := [{ stockItemId := "s1", quantity := 0, unitPrice := 100, totalPrice := 0 }] }

/-- C9 counterexample: a create-order request with a quantity-0 line succeeds
and persists an order item whose quantity is 0, violating the claimed
`quantity ≥ 1` invariant (the only quantity check is
`stockItem.quantity < item.quantity`, which non-positive requests pass). -/
theorem orderitem_zero_quantity_counterexample :
    (createOrder stA zeroReq "o1" "u1").snd = .ok zeroOrder ∧
    ¬ (∀ oi ∈ zeroOrder.orderItems, 1 ≤ oi.quantity) := by
  exact ⟨rfl, by decide⟩

/-- C9 (amended): a successful create-order persists each requested line with
exactly the requested quantity — there is no ≥ 1 floor; a line with
non-positive quantity is persisted as such whenever every line passes the
stock checks. -/
theorem createOrder_quantity_passthrough (st : State) (req : CreateReq)
    (newId salesRepId : String) (st' : State) (o : Order)
    (h : createOrder st req newId salesRepId = (st', .ok o)) :
    o.orderItems.map (fun oi => oi.quantity)
      = (req.items.getD []).map (fun it => it.quantity) := by
  rw [(createOrder_ok_shape st req newId salesRepId st' o h).1, List.map_map]
  rfl

theorem createOrder_quantity_passthrough_witness :
    (createOrder stA zeroReq "o1" "u1")
      = ({ stock := [plywood10], orders := [zeroOrder] }, .ok zeroOrder) ∧
    zeroOrder.orderItems.map (fun oi => oi.quantity)
      = (zeroReq.items.getD []).map (fun it => it.quantity) :=
  ⟨rfl, createOrder_quantity_passthrough stA zeroReq "o1" "u1"
    { stock := [plywood10], orders := [zeroOrder] } zeroOrder rfl⟩

/-- C4: intake validation. Missing customer name/contact/items (or an empty
item list) gives the missing-fields 400; on any failure nothing is persisted;
with fields present the request fails exactly when some line fails its check,
with the first failing line's error; a line fails with `stock_not_found` when
its stock id is absent, and with `insufficient_stock` exactly when the
requested quantity strictly exceeds the on-hand quantity. -/
theorem intake_validation (st : State) (req : CreateReq) (newId salesRepId : String) :
    (missingFields req = true →
      createOrder st req newId salesRepId
        = (st, .error (.badRequest "Customer details and items are required")))
  ∧ (∀ e, (createOrder st req newId salesRepId).snd = .error e →
      (createOrder st req newId salesRepId).fst = st)
  ∧ (∀ l e, missingFields req = false → req.items = some l →
      ((createOrder st req newId salesRepId).snd = .error e ↔
        l.findSome? (lineCheck st) = some e))
  ∧ (∀ item, findStock st item.stockItemId = none →
      lineCheck st item
        = some (.badRequest ("Stock item not found: " ++ item.stockItemId)))
  ∧ (∀ item s, findStock st item.stockItemId = some s →
      (lineCheck st item = some (.badRequest ("Insufficient stock for " ++ s.name))
        ↔ s.quantity < item.quantity)) := by
  refine ⟨?_, ?_, ?_, ?_, ?_⟩
  · intro h
    unfold createOrder
    rw [if_pos h]
  · intro e he
    by_cases hm : missingFields req = true
    · simp [createOrder, hm]
    · cases hb : buildItems st (req.items.getD []) with
      | error e' => simp [createOrder, hm, hb]
      | ok p =>
        obtain ⟨t, l⟩ := p
        simp [createOrder, hm, hb] at he
  · intro l e hm hitems
    have hiff := buildItems_error_iff st l e
    unfold createOrder
    rw [if_neg (by simp [hm]), hitems, Option.getD_some]
    cases hb : buildItems st l with
    | error e' =>
      rw [hb] at hiff
      simp only [hb]
      simpa using hiff
    | ok p =>
      obtain ⟨t, l'⟩ := p
      rw [hb] at hiff
      simp only [hb]
      simp at hiff ⊢
      exact hiff
  · intro item hmiss
    unfold lineCheck
    rw [hmiss]
  · intro item s hs
    unfold lineCheck
    rw [hs]
    by_cases hq : s.quantity < item.quantity
    · simp [hq]
    · simp [hq]

theorem intake_validation_witness :
    (createOrder
        { stock := [{ id := "s1", name := "Plywood", quantity := 3,
                      buyingPrice := 50, sellingPrice := some 80 }], orders := [] }
        reqA "o1" "u1").snd
      = .error (.badRequest "Insufficient stock for Plywood") ∧
    (createOrder
        { stock := [{ id := "s1", name := "Plywood", quantity := 3,
                      buyingPrice := 50, sellingPrice := some 80 }], orders := [] }
        reqA "o1" "u1").fst
      = { stock := [{ id := "s1", name := "Plywood", quantity := 3,
                      buyingPrice := 50, sellingPrice := some 80 }], orders := [] } :=
  ⟨rfl,
   (intake_validation
      { stock := [{ id := "s1", name := "Plywood", quantity := 3,
                    buyingPrice := 50, sellingPrice := some 80 }], orders := [] }
      reqA "o1" "u1").2.1 (.badRequest "Insufficient stock for Plywood") rfl⟩

/-- C5: pricing is snapshotted at creation. Each created line's total is the
requested quantity times the supplied selling price (`mkOrderItem`, default
0), the order total is the sum of the line totals, and neither approval,
rejection, nor a later stock edit through the stock router's `PATCH /:id`
changes any order's total or items. -/
theorem totals_frozen (st : State) (req : CreateReq) (newId salesRepId : String) :
    (∀ st' o, createOrder st req newId salesRepId = (st', .ok o) →
      o.orderItems = (req.items.getD []).map mkOrderItem ∧
      (∀ oi ∈ o.orderItems, oi.totalPrice = oi.quantity * oi.unitPrice) ∧
      o.totalAmount = (o.orderItems.map (fun oi => oi.totalPrice)).sum)
  ∧ (∀ oid fault, orderFinancials (approveOrder st oid fault).fst = orderFinancials st)
  ∧ (∀ oid reason, orderFinancials (rejectOrder st oid reason).fst = orderFinancials st)
  ∧ (∀ sid q bp,
      orderFinancials (updateStockItem st sid q bp).fst = orderFinancials st) := by
  refine ⟨?_, ?_, ?_, ?_⟩
  · intro st' o h
    obtain ⟨hitems, htot, _, _⟩ := createOrder_ok_shape st req newId salesRepId st' o h
    refine ⟨hitems, ?_, htot⟩
    intro oi hoi
    rw [hitems] at hoi
    obtain ⟨item, _, hmk⟩ := List.mem_map.mp hoi
    subst hmk
    simp only [mkOrderItem]
    exact (mul_comm _ _)
  · intro oid fault
    cases hf : findOrder st oid with
    | none => simp [approveOrder, hf]
    | some order =>
      by_cases hp : order.status = OrderStatus.PENDING
      · cases hr : recheckItems st order.orderItems with
        | some e' => simp [approveOrder, hf, hp, hr]
        | none =>
          cases ht : runTx st
              (order.orderItems.map (fun oi => TxStep.decStock oi.stockItemId oi.quantity)
                ++ [TxStep.setStatus oid OrderStatus.APPROVED]) fault with
          | none => simp [approveOrder, hf, hp, hr, ht]
          | some st1 =>
            simp only [approveOrder, hf, hp, hr, ht]
            simp [runTx_financials _ _ _ _ ht]
      · simp [approveOrder, hf, hp]
  · intro oid reason
    unfold rejectOrder
    split
    · rfl
    · split
      · unfold orderFinancials
        simp only [List.map_map]
        apply List.map_congr_left
        intro o _
        simp only [Function.comp]
        split <;> rfl
      · rfl
  · intro sid q bp
    unfold updateStockItem
    split <;> rfl

theorem totals_frozen_witness :
    createOrder stA reqA "o1" "u1" = (stPend, .ok ordA) ∧
    ordA.totalAmount = 400 ∧
    ordA.totalAmount = (ordA.orderItems.map (fun oi => oi.totalPrice)).sum :=
  ⟨rfl, rfl, ((totals_frozen stA reqA "o1" "u1").1 stPend ordA rfl).2.2⟩

/-- C6: a successful approval of a PENDING order, every line of which passes
the stock re-check (and whose lines reference pairwise distinct stock items,
as the claim's per-line reading presumes), returns `ok`, flips the order's
status to APPROVED, decrements each referenced stock item's quantity by
exactly that line's requested quantity, and leaves unreferenced stock rows
unchanged. -/
theorem approve_success (st : State) (oid : String) (order : Order)
    (hfind : findOrder st oid = some order)
    (hpend : order.status = .PENDING)
    (hstock : ∀ oi ∈ order.orderItems, ∃ s, findStock st oi.stockItemId = some s ∧
      oi.quantity ≤ s.quantity)
    (hnodup : (order.orderItems.map (fun oi => oi.stockItemId)).Nodup) :
    (approveOrder st oid none).snd = .ok () ∧
    findOrder (approveOrder st oid none).fst oid
      = some { order with status := .APPROVED } ∧
    (∀ oi ∈ order.orderItems, ∀ s, findStock st oi.stockItemId = some s →
      findStock (approveOrder st oid none).fst oi.stockItemId
        = some { s with quantity := s.quantity - oi.quantity }) ∧
    (∀ sid, (∀ oi ∈ order.orderItems, oi.stockItemId ≠ sid) →
      findStock (approveOrder st oid none).fst sid = findStock st sid) := by
  have hre : recheckItems st order.orderItems = none := recheckItems_none st _ hstock
  have hany : ∀ oi ∈ order.orderItems,
      st.stock.any (fun s => s.id == oi.stockItemId) = true := by
    intro oi hoi
    obtain ⟨s, hs, _⟩ := hstock oi hoi
    exact any_of_find? hs
  have hdec := runTx_decs order.orderItems st hany
  have hanyOrd : ({ st with stock := st.stock.map (fun s =>
        { s with quantity := s.quantity - reqTotal s.id order.orderItems }) }
        : State).orders.any (fun o => o.id == oid) = true := any_of_find? hfind
  have hrun : runTx st
      (order.orderItems.map (fun oi => TxStep.decStock oi.stockItemId oi.quantity)
        ++ [TxStep.setStatus oid OrderStatus.APPROVED]) none
      = some { stock := st.stock.map (fun s =>
                 { s with quantity := s.quantity - reqTotal s.id order.orderItems }),
               orders := st.orders.map (fun o =>
                 if o.id == oid then { o with status := OrderStatus.APPROVED } else o) } := by
    rw [runTx_append, hdec, Option.some_bind, runTx_none_cons,
      applyStep_setStatus_some OrderStatus.APPROVED hanyOrd, Option.some_bind]
    rfl
  have happ : approveOrder st oid none
      = ({ stock := st.stock.map (fun s =>
             { s with quantity := s.quantity - reqTotal s.id order.orderItems }),
           orders := st.orders.map (fun o =>
             if o.id == oid then { o with status := OrderStatus.APPROVED } else o) },
         .ok ()) := by
    simp [approveOrder, hfind, hpend, hre, hrun]
  refine ⟨?_, ?_, ?_, ?_⟩
  · rw [happ]
  · rw [happ]
    exact find?_update_order (fun o => { o with status := OrderStatus.APPROVED })
      (fun o => rfl) hfind
  · intro oi hoi s hs
    rw [happ]
    have hs' : st.stock.find? (fun x => x.id == oi.stockItemId) = some s := hs
    have hsid : s.id = oi.stockItemId := by
      have hb := List.find?_some hs'
      rwa [beq_iff_eq] at hb
    have hreq : reqTotal s.id order.orderItems = oi.quantity := by
      rw [hsid]
      exact reqTotal_of_nodup order.orderItems oi hnodup hoi
    show (st.stock.map (fun x : StockItem =>
        { x with quantity := x.quantity - reqTotal x.id order.orderItems })).find?
        (fun x : StockItem => x.id == oi.stockItemId)
      = some { s with quantity := s.quantity - oi.quantity }
    rw [findStock_map st.stock
      (fun x : StockItem =>
        { x with quantity := x.quantity - reqTotal x.id order.orderItems })
      (fun x => rfl) oi.stockItemId, hs']
    simp only [Option.map_some']
    rw [hreq]
  · intro sid hnot
    rw [happ]
    show (st.stock.map (fun x : StockItem =>
        { x with quantity := x.quantity - reqTotal x.id order.orderItems })).find?
        (fun x : StockItem => x.id == sid)
      = findStock st sid
    rw [findStock_map st.stock
      (fun x : StockItem =>
        { x with quantity := x.quantity - reqTotal x.id order.orderItems })
      (fun x => rfl) sid]
    cases hfs : st.stock.find? (fun x => x.id == sid) with
    | none =>
      rw [show findStock st sid = none from hfs]
      rfl
    | some s =>
      have hsid : s.id = sid := by
        have hb := List.find?_some hfs
        rwa [beq_iff_eq] at hb
      have hreq : reqTotal s.id order.orderItems = 0 := by
        rw [hsid]
        exact reqTotal_zero sid order.orderItems hnot
      rw [show findStock st sid = some s from hfs]
      simp only [Option.map_some']
      rw [hreq, sub_zero]

theorem approve_success_witness :
    (approveOrder stPend "o1" none).snd = .ok () ∧
    findOrder (approveOrder stPend "o1" none).fst "o1"
      = some { ordA with status := .APPROVED } ∧
    findStock (approveOrder stPend "o1" none).fst "s1"
      = some { plywood10 with quantity := 6 } := by
  have h := approve_success stPend "o1" ordA rfl rfl
    (by
      intro oi hoi
      have ho : oi ∈ [itemA] := hoi
      rw [List.mem_singleton] at ho
      subst ho
      exact ⟨plywood10, rfl, by decide⟩)
    (by decide)
  refine ⟨h.1, h.2.1, ?_⟩
  have h3 := h.2.2.1 itemA (List.mem_singleton_self itemA) plywood10 rfl
  exact h3

end Namef
